import Mathlib

/-!
Shallow embedding of the `dit` streaming engine (web-app video player and the
linked-data signed-message verifier), with theorems checking the written
specification against the source.

Conventions of the embedding:
* content identifiers (CIDs) are abstracted as natural numbers — the engine
  only compares them for equality and uses them as hash-map keys;
* `f64` times, durations and bitrates are embedded as rationals; every
  comparison the engine performs is on values where this is faithful;
* hash maps are embedded as association lists with at most one binding per
  key (`alistInsert` overwrites, `alistRemove` deletes and returns the value),
  matching the `HashMap` operations the source uses;
* a Rust panic (an `unwrap` or `expect` that can fail) is embedded by an
  `Option` result, `none` meaning the handler panicked;
* async fetches spawned by a handler are returned as an explicit `Effect`
  list in the order the source spawns them.
-/

namespace Dit

/-- Content identifier: opaque, compared only for equality. -/
abbrev Cid := Nat

/-- VideoNode of the live stream: link to the previous node plus a map from
track name to segment CID (`linked_data::video::VideoNode`, with the
`Option IPLDLink` already projected to its CID as the player does with
`node.previous.map(|l| l.link)`). -/
structure VideoNode where
  previous : Option Cid
  tracks : List (String × Cid)
deriving DecidableEq, Repr

/-- Async operations spawned by the handlers. -/
inductive Effect where
  | fetchNode (cid : Cid)
  | fetchSetup (cid : Cid)
deriving DecidableEq, Repr

/-- LiveStream state of `video_player.rs`: `buffer` is the ordered deque,
`unordered_buffer` the pending hash map. -/
structure LiveState where
  topic : String
  streamer_peer_id : String
  previous : Option Cid
  buffer : List (Cid × VideoNode)
  unordered_buffer : List (Cid × VideoNode)
deriving DecidableEq, Repr

/-- HashMap.remove on an association list: delete the binding of `k` and
return its value, or `none` when `k` is unbound. -/
def alistRemove (k : Cid) : List (Cid × VideoNode) → Option (VideoNode × List (Cid × VideoNode))
  | [] => none
  | (k2, v) :: rest =>
    if k2 = k then some (v, rest)
    else (alistRemove k rest).map (fun p => (p.1, (k2, v) :: p.2))

/-- HashMap.insert on an association list: overwrite the binding of `k`. -/
def alistInsert (k : Cid) (v : VideoNode) : List (Cid × VideoNode) → List (Cid × VideoNode)
  | [] => [(k, v)]
  | (k2, v2) :: rest =>
    if k2 = k then (k, v) :: rest
    else (k2, v2) :: alistInsert k v rest

/-- VideoPlayer::check_order, with explicit fuel making the recursion
structural; each recursive call removes one entry from `unordered_buffer`, so
`unordered_buffer.length` fuel is exactly enough (with zero fuel the map is
empty and the lookup below would fail anyway).  Note the source looks the tail
CID itself up as a KEY of `unordered_buffer` and re-appends it. -/
def checkOrderFuel : Nat → LiveState → LiveState
  | 0, st => st
  | fuel + 1, st =>
    match st.buffer.getLast? with
    | none => st
    | some (cid, _) =>
      match alistRemove cid st.unordered_buffer with
      | none => st
      | some (node, rest) =>
        checkOrderFuel fuel
          { st with buffer := st.buffer ++ [(cid, node)], unordered_buffer := rest }

/-- VideoPlayer::check_order (recursively try to extend the ordered buffer
from the unordered one). -/
def check_order (st : LiveState) : LiveState :=
  checkOrderFuel st.unordered_buffer.length st

/-- VideoPlayer::buffer_video_node.  Returns the new live state and the
spawned fetches, or `none` when the handler panics: in the out-of-order
branch the source runs `node.previous.map(|l| l.link).unwrap()`, which
panics when `previous` is absent. -/
def buffer_video_node (st : LiveState) (cid : Cid) (node : VideoNode) :
    Option (LiveState × List Effect) :=
  if st.buffer = [] ∧ node.previous = st.previous then
    some (check_order { st with buffer := st.buffer ++ [(cid, node)] }, [])
  else if node.previous = st.buffer.getLast?.map Prod.fst then
    some (check_order { st with buffer := st.buffer ++ [(cid, node)] }, [])
  else
    match node.previous with
    | none => none
    | some p =>
      some ({ st with unordered_buffer := alistInsert cid node st.unordered_buffer },
        [Effect.fetchNode p])

/-- Run a sequence of `buffer_video_node` deliveries, propagating panics. -/
def deliverAll (st : LiveState) : List (Cid × VideoNode) → Option LiveState
  | [] => some st
  | (cid, node) :: rest =>
    match buffer_video_node st cid node with
    | none => none
    | some (st2, _) => deliverAll st2 rest

/-- VideoPlayer::on_pubsub_update, for a live player (the source unwraps
`live_stream`; the claim concerns the live configuration where it is
present).  `decode` stands for `Cid::try_from` on the payload bytes and
`media_buffers_present` for `self.media_buffers.is_some()`. -/
def on_pubsub_update (decode : List Nat → Option Cid) (live : LiveState)
    (media_buffers_present : Bool) (sender : String) (data : List Nat) :
    LiveState × List Effect :=
  if sender ≠ live.streamer_peer_id then (live, [])
  else
    match decode data with
    | none => (live, [])
    | some cid =>
      if media_buffers_present then (live, [Effect.fetchNode cid])
      else (live, [Effect.fetchNode cid, Effect.fetchSetup cid])

/-- Node A of the reorder scenario: first of the chain, no previous link. -/
def nodeA : VideoNode := ⟨none, []⟩

/-- Node B of the reorder scenario: previous = A (CID 1). -/
def nodeB : VideoNode := ⟨some 1, []⟩

/-- Node C of the reorder scenario: previous = B (CID 2). -/
def nodeC : VideoNode := ⟨some 2, []⟩

/-- Fresh live state (engine start: previous absent, both buffers empty). -/
def liveStart : LiveState := ⟨"topic", "origin", none, [], []⟩

/-- Track of the setup descriptor (`linked_data::video::Track`), the
initialization-segment link projected to its CID. -/
structure Track where
  name : String
  codec : String
  bandwidth : Nat
  initialization_segment : Cid
deriving DecidableEq, Repr

/-- The six states of the player state machine. -/
inductive MachineState where
  | Load
  | Switch
  | Flush
  | Timeout
  | AdaptativeBitrate
  | Status
deriving DecidableEq, Repr

/-- The level-selection loop of VideoPlayer::check_abr, walking the suffix of
the track list the loop inspects: starting from `next`, the source reads
`tracks[next + 1]` (the head of the suffix), stops when it is missing or when
`avg_bitrate <= bandwidth`, and otherwise advances. -/
def abrGo (avg : ℚ) : List Track → Nat → Nat
  | [], next => next
  | t :: rest, next =>
    if avg ≤ (t.bandwidth : ℚ) then next else abrGo avg rest (next + 1)

/-- Level selected by VideoPlayer::check_abr from a warm average bitrate:
`next_level = 1`, then advance while `avg_bitrate > tracks[next + 1].bandwidth`
(the source breaks on `avg_bitrate <= next_bitrate`). -/
def abr_next_level (tracks : List Track) (avg : ℚ) : Nat :=
  abrGo avg (tracks.drop 2) 1

/-- The level-selection loop as the CLAIM words it: advance while
`tracks[next + 1].bandwidth ≤ avg_bitrate`, so at equality the higher index is
preferred.  Kept separate from the source-derived `abrGo` to compare the two. -/
def abrGoClaim (avg : ℚ) : List Track → Nat → Nat
  | [], next => next
  | t :: rest, next =>
    if (t.bandwidth : ℚ) ≤ avg then abrGoClaim avg rest (next + 1) else next

/-- Level selection as the claim words it. -/
def abr_next_level_claim (tracks : List Track) (avg : ℚ) : Nat :=
  abrGoClaim avg (tracks.drop 2) 1

/-- VideoPlayer::check_abr: with a cold estimator keep the level and go to
Status; with a warm average select a level, keep it and go to Status when
unchanged, otherwise commit it and go to Switch. -/
def check_abr (tracks : List Track) (level : Nat) (avg : Option ℚ) :
    Nat × MachineState :=
  match avg with
  | none => (level, MachineState.Status)
  | some a =>
    let next_level := abr_next_level tracks a
    if next_level = level then (level, MachineState.Status)
    else (next_level, MachineState.Switch)

/-- The track list of the spec scenarios: audio 64000, then video levels with
bandwidths 500000, 1500000, 3000000. -/
def exTracks : List Track :=
  [⟨"audio", "mp4a", 64000, 10⟩, ⟨"1080p30", "avc1a", 500000, 11⟩,
    ⟨"1080p60", "avc1b", 1500000, 12⟩, ⟨"4k", "avc1c", 3000000, 13⟩]

/-- FORWARD_BUFFER_LENGTH (seconds). -/
def FORWARD_BUFFER_LENGTH : ℚ := 16

/-- BACK_BUFFER_LENGTH (seconds). -/
def BACK_BUFFER_LENGTH : ℚ := 8

/-- The buff_start/buff_end computation shared by VideoPlayer::check_status
and VideoPlayer::flush_buffer: both start at `0.0` and are overwritten by
every time range in turn (`for i in 0..count { buff_start = start(i);
buff_end = end(i) }` with every read succeeding), so both end up taken from
the LAST range. -/
def scanRanges (ranges : List (ℚ × ℚ)) : ℚ × ℚ :=
  ranges.foldl (fun _ r => r) (0, 0)

/-- Decision taken by VideoPlayer::check_status. -/
inductive StatusAction where
  | flush
  | endOfVideo
  | timeout
  | load
deriving DecidableEq, Repr

/-- VideoPlayer::check_status on a successfully read range list:
`metadata = some duration` in VOD mode, `none` in live mode. -/
def check_status (metadata : Option ℚ) (ranges : List (ℚ × ℚ))
    (current_time : ℚ) : StatusAction :=
  let p := scanRanges ranges
  if p.1 + BACK_BUFFER_LENGTH < current_time then StatusAction.flush
  else
    match metadata with
    | some duration =>
      if duration ≤ p.2 then StatusAction.endOfVideo
      else if current_time + FORWARD_BUFFER_LENGTH < p.2 then StatusAction.timeout
      else StatusAction.load
    | none => StatusAction.load

/-- Status decision as the CLAIM words it: `buff_start` from the FIRST range
and `buff_end` from the last, then the same decision chain. -/
def check_status_claim (metadata : Option ℚ) (ranges : List (ℚ × ℚ))
    (current_time : ℚ) : StatusAction :=
  let bs := (ranges.head?.getD (0, 0)).1
  let be := (ranges.getLast?.getD (0, 0)).2
  if bs + BACK_BUFFER_LENGTH < current_time then StatusAction.flush
  else
    match metadata with
    | some duration =>
      if duration ≤ be then StatusAction.endOfVideo
      else if current_time + FORWARD_BUFFER_LENGTH < be then StatusAction.timeout
      else StatusAction.load
    | none => StatusAction.load

/-- Status decision with BOTH bounds from the last range: what the source
loop actually computes. -/
def check_status_last (metadata : Option ℚ) (ranges : List (ℚ × ℚ))
    (current_time : ℚ) : StatusAction :=
  let q := ranges.getLast?.getD (0, 0)
  if q.1 + BACK_BUFFER_LENGTH < current_time then StatusAction.flush
  else
    match metadata with
    | some duration =>
      if duration ≤ q.2 then StatusAction.endOfVideo
      else if current_time + FORWARD_BUFFER_LENGTH < q.2 then StatusAction.timeout
      else StatusAction.load
    | none => StatusAction.load

/-- The remove interval VideoPlayer::flush_buffer passes to
`SourceBuffer::remove` on both sinks: `buff_start`/`buff_end` scanned as in
`check_status`, then `buff_end` clipped to `current_time - BACK_BUFFER_LENGTH`
when a back-buffer flush is possible. -/
def flushInterval (ranges : List (ℚ × ℚ)) (current_time : ℚ) : ℚ × ℚ :=
  let p := scanRanges ranges
  let back_buffer_start := current_time - BACK_BUFFER_LENGTH
  if p.1 < back_buffer_start then (p.1, back_buffer_start) else (p.1, p.2)

/-- Media-source `remove(a, b)`: every buffered range loses its intersection
with the interval `[a, b]`, a left and a right remnant surviving. -/
def removeRange (a b : ℚ) (ranges : List (ℚ × ℚ)) : List (ℚ × ℚ) :=
  ranges.foldr
    (fun r acc =>
      (if r.1 < a then [(r.1, min r.2 a)] else []) ++
        (if b < r.2 then [(max r.1 b, r.2)] else []) ++ acc)
    []

/-- Buffered ranges of the video sink after VideoPlayer::flush_buffer. -/
def flush_buffer (ranges : List (ℚ × ℚ)) (current_time : ℚ) : List (ℚ × ℚ) :=
  let i := flushInterval ranges current_time
  removeRange i.1 i.2 ranges

/-- Rounding of a non-negative `f64` as Rust `f64::round` does it (half away
from zero), landed in ℕ. -/
def rustRound (s : ℚ) : Nat :=
  (Int.floor (s + 1 / 2)).toNat

/-- Cast `as u8` of a non-negative value: truncate, saturating at 255. -/
def toU8 (n : Nat) : Nat := min n 255

/-- seconds_to_timecode of `video_player.rs`: round, then split into
hours/minutes/seconds with each component cast `as u8`. -/
def seconds_to_timecode (seconds : ℚ) : Nat × Nat × Nat :=
  let rem0 := rustRound seconds
  let hours := toU8 (rem0 / 3600)
  let rem1 := rem0 % 3600
  let minutes := toU8 (rem1 / 60)
  let rem2 := rem1 % 60
  (hours, minutes, toU8 rem2)

/-- Generic signed message of `linked-data/src/signature.rs`: a 20-byte
address, the payload (abstracted to its byte content) and a signature byte
vector. -/
structure SignedMessage where
  address : List Nat
  data : List Nat
  signature : List Nat
deriving DecidableEq, Repr

/-- The external cryptographic primitives `verify` calls, abstracted:
`serialize_json` is `serde_json::to_vec`, `keccak256` the hash,
`parse_signature` is `Signature::parse_slice` on the 64 leading bytes
(returning an abstract signature token), and `recover` is
`secp256k1::recover` returning the 65-byte `0x04`-prefixed serialized
public key. -/
structure SigPrimitives where
  serialize_json : List Nat → List Nat
  keccak256 : List Nat → List Nat
  parse_signature : List Nat → Option Nat
  recover : List Nat → Nat → Nat → Option (List Nat)

/-- Modelled from the spec: `RecoveryId::parse_rpc` of the secp256k1 library
(a dependency, not under src/) — the trailing signature byte is a recovery id
in RPC encoding, the valid values being 27 to 30. -/
def parse_rpc (v : Nat) : Option Nat :=
  if 27 ≤ v ∧ v ≤ 30 then some (v - 27) else none

/-- The Ethereum personal-message prefix applied by `verify`:
`"\x19Ethereum Signed Message:\n" ++ decimal(len m) ++ m`, as bytes. -/
def eth_prefixed (m : List Nat) : List Nat :=
  25 :: (("Ethereum Signed Message:\n".toList.map Char.toNat) ++
    ((Nat.toDigits 10 m.length).map Char.toNat) ++ m)

/-- SignedMessage::verify.  `some b` is a normal return of `b`; `none` is a
panic: the source `expect`s on `Message::parse_slice` (hash not 32 bytes),
`Signature::parse_slice` and `RecoveryId::parse_rpc`.  A failing `recover`
returns `false`; otherwise the result compares the low 20 bytes of the keccak
hash of the 64-byte public key (the leading `0x04` dropped) with `address`. -/
def verify (P : SigPrimitives) (msg : SignedMessage) : Option Bool :=
  if msg.signature.length ≠ 65 then some false
  else
    let m := P.serialize_json msg.data
    let hash := P.keccak256 (eth_prefixed m)
    if hash.length ≠ 32 then none
    else
      match P.parse_signature (msg.signature.take 64) with
      | none => none
      | some sig =>
        match parse_rpc (msg.signature.getD 64 0) with
        | none => none
        | some rec_id =>
          match P.recover hash sig rec_id with
          | none => some false
          | some public_key =>
            some (decide ((P.keccak256 (public_key.drop 1)).drop 12 = msg.address))

/-- The public key `verify` recovers, as the claim describes it: parse
`(r, s)` from bytes 0..64 and the RPC recovery id from byte 64, then recover
against the keccak hash of the Ethereum-prefixed serialisation of `data`. -/
def recovered_key (P : SigPrimitives) (msg : SignedMessage) : Option (List Nat) :=
  match P.parse_signature (msg.signature.take 64) with
  | none => none
  | some sig =>
    match parse_rpc (msg.signature.getD 64 0) with
    | none => none
    | some rec_id =>
      P.recover (P.keccak256 (eth_prefixed (P.serialize_json msg.data))) sig rec_id

/-- Concrete primitives for witnesses: identity serialisation, a constant
32-byte hash, a parser accepting every 64-byte slice, and a recovery that
always yields the 65-byte key 04 || pk. -/
def constPrims : SigPrimitives :=
  ⟨fun l => l, fun _ => List.replicate 32 7, fun _ => some 0,
    fun _ _ _ => some (List.replicate 65 2)⟩

/-- Concrete primitives whose `recover` always fails. -/
def constPrimsNoKey : SigPrimitives :=
  ⟨fun l => l, fun _ => List.replicate 32 7, fun _ => some 0, fun _ _ _ => none⟩

/-- A message whose 65-byte signature ends in the valid RPC recovery id 27
and whose address matches the constant-hash recovered key of `constPrims`. -/
def signedOk : SignedMessage :=
  ⟨List.replicate 20 7, [], List.replicate 64 0 ++ [27]⟩

/-- A message whose 65-byte signature ends in the byte 0, which is not a
valid RPC recovery id. -/
def signedBadV : SignedMessage :=
  ⟨List.replicate 20 7, [], List.replicate 64 1 ++ [0]⟩

/-!
Helper lemmas shared by the theorems below.
-/

/-- The ABR loop only moves forward. -/
lemma abrGo_le (avg : ℚ) : ∀ (l : List Track) (next : Nat), next ≤ abrGo avg l next
  | [], _ => Nat.le_refl _
  | t :: rest, next => by
    unfold abrGo
    by_cases h : avg ≤ (t.bandwidth : ℚ)
    · simp [h]
    · simpa [h] using Nat.le_trans (Nat.le_succ next) (abrGo_le avg rest (next + 1))

/-- Characterisation of the ABR loop on the suffix it walks: every element
strictly before the stopping distance has bandwidth below the average, and
the element at the stopping distance (when present) has bandwidth at or
above it. -/
lemma abrGo_spec (avg : ℚ) : ∀ (l : List Track) (next : Nat),
    (∀ j t, j < abrGo avg l next - next → l[j]? = some t → (t.bandwidth : ℚ) < avg) ∧
    (∀ t, l[abrGo avg l next - next]? = some t → avg ≤ (t.bandwidth : ℚ)) := by
  intro l
  induction l with
  | nil =>
    intro next
    constructor
    · intro j t hj
      simp [abrGo] at hj
    · intro t ht
      simp at ht
  | cons a rest ih =>
    intro next
    by_cases h : avg ≤ (a.bandwidth : ℚ)
    · constructor
      · intro j t hj
        simp [abrGo, h] at hj
      · intro t ht
        simp [abrGo, h] at ht
        rwa [ht] at h
    · have hle := abrGo_le avg rest (next + 1)
      have hgo : abrGo avg (a :: rest) next = abrGo avg rest (next + 1) := by
        simp [abrGo, h]
      obtain ⟨ih1, ih2⟩ := ih (next + 1)
      constructor
      · intro j t hj hget
        rw [hgo] at hj
        match j, hget with
        | 0, hget =>
          rw [List.getElem?_cons_zero] at hget
          cases hget
          exact lt_of_not_le h
        | j2 + 1, hget =>
          rw [List.getElem?_cons_succ] at hget
          exact ih1 j2 t (by omega) hget
      · intro t ht
        rw [hgo] at ht
        have hidx : abrGo avg rest (next + 1) - next =
            (abrGo avg rest (next + 1) - (next + 1)) + 1 := by omega
        rw [hidx, List.getElem?_cons_succ] at ht
        exact ih2 t ht

/-- Folding the keep-the-newest function over a list lands on the last
element (the source loops `buff_start = start(i); buff_end = end(i)` over
every range, so the final values come from the last one). -/
lemma foldl_keep_last (i : ℚ × ℚ) (l : List (ℚ × ℚ)) :
    l.foldl (fun _ r => r) i = l.getLast?.getD i := by
  induction l generalizing i with
  | nil => rfl
  | cons a t ih =>
    rw [List.foldl_cons, ih]
    cases t with
    | nil => rfl
    | cons b t2 =>
      rw [List.getLast?_cons_cons]
      obtain ⟨x, hx⟩ :=
        Option.isSome_iff_exists.mp (List.getLast?_isSome.mpr (List.cons_ne_nil b t2))
      rw [hx]
      rfl

/-!
Claim theorems.
-/

/-- C1.  The claim (and the spec) require the reorder buffer to move a
pending node to `ordered` whenever its `previous` link equals the current
tail CID, so that announcing C, A, B (with A.previous absent, B.previous = A,
C.previous = B) yields A, B, C.  The source instead looks the tail CID up as
a KEY of the pending map, so after the deliveries C (CID 3), A (CID 1),
B (CID 2) the ordered buffer holds exactly A, B and C is stuck in the
pending map: the yielded order is A, B, never C. -/
theorem reorder_scenario_code_behaviour :
    (deliverAll liveStart [(3, nodeC), (1, nodeA), (2, nodeB)]).map
        (fun st => (st.buffer.map Prod.fst, st.unordered_buffer.map Prod.fst)) =
      some ([1, 2], [3]) := by decide

/-- C2 counterexample.  At an average bitrate exactly equal to a track
bandwidth the claim (advance while `tracks[next+1].bandwidth ≤ avg`, ties to
the higher index) selects level 2, but the source breaks the loop on
`avg_bitrate <= next_bitrate` and selects level 1. -/
theorem abr_tie_counterexample :
    abr_next_level exTracks 1500000 = 1 ∧
      abr_next_level_claim exTracks 1500000 = 2 := by decide

/-- C2 amended.  check_abr commits the level reached by advancing while
`tracks[next+1].bandwidth < avg_bitrate` (strict: at equality the loop stops,
keeping the lower index): every level up to the committed one has bandwidth
strictly below the estimate and the next level, when it exists, has bandwidth
at or above it; the concrete scenarios (avg 1600000 gives level 2,
avg 10000000 gives level 3) hold as claimed. -/
theorem check_abr_amended :
    (∀ (tracks : List Track) (avg : ℚ),
      1 ≤ abr_next_level tracks avg ∧
      (∀ k t, 2 ≤ k → k ≤ abr_next_level tracks avg → tracks[k]? = some t →
        (t.bandwidth : ℚ) < avg) ∧
      (∀ t, tracks[abr_next_level tracks avg + 1]? = some t →
        avg ≤ (t.bandwidth : ℚ))) ∧
    abr_next_level exTracks 1600000 = 2 ∧
    abr_next_level exTracks 10000000 = 3 := by
  refine ⟨?_, by decide, by decide⟩
  intro tracks avg
  have h1 := abrGo_le avg (tracks.drop 2) 1
  obtain ⟨h2, h3⟩ := abrGo_spec avg (tracks.drop 2) 1
  unfold abr_next_level
  refine ⟨h1, ?_, ?_⟩
  · intro k t hk2 hkL ht
    have hd : (tracks.drop 2)[k - 2]? = some t := by
      rw [List.getElem?_drop]
      rwa [show 2 + (k - 2) = k from by omega]
    exact h2 (k - 2) t (by omega) hd
  · intro t ht
    have hd : (tracks.drop 2)[abrGo avg (tracks.drop 2) 1 - 1]? = some t := by
      rw [List.getElem?_drop]
      rwa [show 2 + (abrGo avg (tracks.drop 2) 1 - 1) =
        abrGo avg (tracks.drop 2) 1 + 1 from by omega]
    exact h3 t hd

/-- C2 witness: the general part of the amended theorem applied at the
scenario tracks with average 1600000 and level 2 gives that the bandwidth of
track 2 is strictly below the estimate. -/
theorem check_abr_amended_witness : ((1500000 : Nat) : ℚ) < 1600000 :=
  (check_abr_amended.1 exTracks 1600000).2.1 2 ⟨"1080p60", "avc1b", 1500000, 12⟩
    (by decide) (by decide) (by decide)

/-- C3 counterexample.  With ranges [(0,5), (10,20)] at current time 15 the
claim (buff_start from the FIRST range) decides Flush (15 > 0 + 8), but the
source loop leaves buff_start = 10 (the last range), so 15 ≤ 10 + 8 and a
live player decides Load. -/
theorem check_status_first_range_counterexample :
    check_status none [(0, 5), (10, 20)] 15 = StatusAction.load ∧
      check_status_claim none [(0, 5), (10, 20)] 15 = StatusAction.flush := by
  norm_num [check_status, check_status_claim, scanRanges, BACK_BUFFER_LENGTH,
    FORWARD_BUFFER_LENGTH]

/-- C3 amended.  check_status takes BOTH buff_start and buff_end from the
last buffered range (the loop overwrites them on every range); with that
reading, exactly the claimed decision chain is applied in order: Flush when
current_time > buff_start + 8, else end-of-video when VOD and
buff_end ≥ duration, else Timeout when VOD and current_time + 16 < buff_end,
else Load. -/
theorem check_status_amended :
    ∀ (metadata : Option ℚ) (ranges : List (ℚ × ℚ)) (current_time : ℚ),
      check_status metadata ranges current_time =
        check_status_last metadata ranges current_time := by
  intro metadata ranges current_time
  simp only [check_status, check_status_last, scanRanges, foldl_keep_last]

/-- C4 counterexample.  With ranges [(0,5), (10,20)] at current time 19 the
Status step decides Flush (rule 1 under both readings: 19 > 18 and
19 > 0 + 8), the claim says remove [0, 11], but the source removes [10, 11]
and the buffer afterwards still holds the range (0, 5), whose start 0 is
strictly below current_time − BACK_BUFFER_LENGTH = 11: the claimed
back-buffer bound fails. -/
theorem flush_back_buffer_counterexample :
    check_status none [(0, 5), (10, 20)] 19 = StatusAction.flush ∧
      flushInterval [(0, 5), (10, 20)] 19 = (10, 11) ∧
      flush_buffer [(0, 5), (10, 20)] 19 = [(0, 5), (11, 20)] ∧
      ¬ ((19 : ℚ) - BACK_BUFFER_LENGTH ≤ 0) := by
  norm_num [check_status, flushInterval, flush_buffer, removeRange, scanRanges,
    BACK_BUFFER_LENGTH]

/-- C4 amended.  Flush takes buff_start and buff_end from the LAST buffered
range, removing [buff_start, current_time − 8] when
buff_start < current_time − 8 and the full [buff_start, buff_end] otherwise
(audio sink then video sink); consequently the back-buffer bound holds when
the buffer consists of a single range: every range remaining after the flush
starts at or after current_time − BACK_BUFFER_LENGTH. -/
theorem flush_buffer_amended :
    (∀ (ranges : List (ℚ × ℚ)) (current_time : ℚ),
      flushInterval ranges current_time =
        (if (ranges.getLast?.getD (0, 0)).1 < current_time - BACK_BUFFER_LENGTH
          then ((ranges.getLast?.getD (0, 0)).1, current_time - BACK_BUFFER_LENGTH)
          else ranges.getLast?.getD (0, 0))) ∧
    (∀ (s e current_time : ℚ), ∀ p ∈ flush_buffer [(s, e)] current_time,
      current_time - BACK_BUFFER_LENGTH ≤ p.1) := by
  constructor
  · intro ranges current_time
    simp only [flushInterval, scanRanges, foldl_keep_last]
  · intro s e current_time p hp
    simp only [flush_buffer, flushInterval, scanRanges, List.foldl_cons,
      List.foldl_nil, removeRange, List.foldr_cons, List.foldr_nil] at hp
    by_cases h : s < current_time - BACK_BUFFER_LENGTH
    · rw [if_pos h] at hp
      simp only [lt_irrefl, if_false, List.nil_append, List.append_nil] at hp
      by_cases h2 : current_time - BACK_BUFFER_LENGTH < e
      · rw [if_pos h2] at hp
        rw [List.mem_singleton] at hp
        rw [hp]
        exact le_max_right _ _
      · rw [if_neg h2] at hp
        exact absurd hp (List.not_mem_nil p)
    · rw [if_neg h] at hp
      simp only [lt_irrefl, if_false, List.nil_append, List.append_nil] at hp
      exact absurd hp (List.not_mem_nil p)

/-- C4 witness: the amended theorem applied to the single range (10, 20) at
current time 19: the surviving range (11, 20) starts at 11 ≥ 19 − 8. -/
theorem flush_buffer_amended_witness :
    (19 : ℚ) - BACK_BUFFER_LENGTH ≤ ((11 : ℚ), (20 : ℚ)).1 :=
  flush_buffer_amended.2 10 20 19 (11, 20)
    (by norm_num [flush_buffer, flushInterval, scanRanges, removeRange,
      BACK_BUFFER_LENGTH])

/-- C5.  A pub-sub message whose sender identity differs from the streamer
peer id is dropped before anything else happens: the live state (previous,
ordered buffer, pending map) is returned unchanged and no fetch is spawned,
whatever the payload decodes to and whether or not the media buffers exist. -/
theorem on_pubsub_update_auth (decode : List Nat → Option Cid) (live : LiveState)
    (media_buffers_present : Bool) (sender : String) (data : List Nat)
    (h : sender ≠ live.streamer_peer_id) :
    on_pubsub_update decode live media_buffers_present sender data = (live, []) := by
  unfold on_pubsub_update
  rw [if_pos h]

/-- C5 witness at a concrete unauthorized sender. -/
theorem on_pubsub_update_auth_witness :
    on_pubsub_update (fun _ => none) liveStart true "mallory" [0] =
      (liveStart, []) :=
  on_pubsub_update_auth (fun _ => none) liveStart true "mallory" [0] (by decide)

/-- C6.  For every message with a 65-byte signature (and a 32-byte hash
primitive, as keccak256 is by type), verify returns true exactly when the
public key recovered from the keccak hash of the Ethereum-prefixed
serialisation of `data` together with (r, s, v) exists and the low 20 bytes
of the keccak hash of its 64-byte uncompressed form equal the address. -/
theorem verify_iff_recovered_address (P : SigPrimitives) (msg : SignedMessage)
    (hlen : msg.signature.length = 65)
    (hk : ∀ bs, (P.keccak256 bs).length = 32) :
    (verify P msg = some true ↔
      ∃ pk, recovered_key P msg = some pk ∧
        (P.keccak256 (pk.drop 1)).drop 12 = msg.address) := by
  unfold verify recovered_key
  rw [hlen]
  simp only [hk, ne_eq]
  norm_num
  cases hps : P.parse_signature (msg.signature.take 64) with
  | none => simp
  | some sig =>
    cases hrpc : parse_rpc (msg.signature[64]?.getD 0) with
    | none => simp
    | some rec_id =>
      cases hrec : P.recover (P.keccak256 (eth_prefixed (P.serialize_json msg.data)))
          sig rec_id with
      | none => simp [hrec]
      | some pk => simp [hrec, decide_eq_true_iff]

/-- C6 witness at concrete primitives and a message whose recovery succeeds
and matches the address. -/
theorem verify_iff_recovered_address_witness :
    verify constPrims signedOk = some true ↔
      ∃ pk, recovered_key constPrims signedOk = some pk ∧
        (constPrims.keccak256 (pk.drop 1)).drop 12 = signedOk.address :=
  verify_iff_recovered_address constPrims signedOk (by decide) (fun _ => rfl)

/-- C7 counterexample.  At 921600 seconds (256 hours) the claim gives
H = floor(921600/3600) = 256, but the hours value passes through a cast
`as u8`, which saturates at 255: the source returns (255, 0, 0). -/
theorem seconds_to_timecode_saturation_counterexample :
    seconds_to_timecode 921600 = (255, 0, 0) ∧ (921600 : Nat) / 3600 = 256 := by
  norm_num [seconds_to_timecode, rustRound, toU8]
  decide

/-- C7 amended.  For non-negative s with R = round(s) (half away from zero),
seconds_to_timecode returns (min (R / 3600) 255, R mod 3600 / 60, R mod 60)
— the claimed triple except that the hours component saturates at 255 —
with minutes and seconds in [0, 59]; the claimed concrete conversions hold. -/
theorem seconds_to_timecode_amended :
    (∀ s : ℚ, 0 ≤ s →
      seconds_to_timecode s =
        (min ((Int.floor (s + 1 / 2)).toNat / 3600) 255,
          (Int.floor (s + 1 / 2)).toNat % 3600 / 60,
          (Int.floor (s + 1 / 2)).toNat % 60) ∧
      (seconds_to_timecode s).2.1 ≤ 59 ∧ (seconds_to_timecode s).2.2 ≤ 59) ∧
    seconds_to_timecode (3725.4 : ℚ) = (1, 2, 5) ∧
    seconds_to_timecode (59.6 : ℚ) = (0, 1, 0) ∧
    seconds_to_timecode 0 = (0, 0, 0) := by
  refine ⟨?_, ?_, ?_, ?_⟩
  · intro s _
    have h1 : (Int.floor (s + 1 / 2)).toNat % 3600 / 60 ≤ 59 := by omega
    have h2 : (Int.floor (s + 1 / 2)).toNat % 3600 % 60 =
        (Int.floor (s + 1 / 2)).toNat % 60 := Nat.mod_mod_of_dvd _ (by norm_num)
    have h3 : (Int.floor (s + 1 / 2)).toNat % 3600 % 60 ≤ 59 := by omega
    simp only [seconds_to_timecode, rustRound, toU8]
    refine ⟨?_, ?_, ?_⟩
    · rw [min_eq_left (le_trans h1 (by norm_num)), h2,
        min_eq_left (le_trans (Nat.le_of_lt_succ (Nat.mod_lt _ (by norm_num))) (by norm_num :
          (59 : Nat) ≤ 255))]
    · exact le_trans (min_le_left _ _) h1
    · exact le_trans (min_le_left _ _) h3
  · norm_num [seconds_to_timecode, rustRound, toU8]
    decide
  · norm_num [seconds_to_timecode, rustRound, toU8]
    decide
  · norm_num [seconds_to_timecode, rustRound, toU8]

/-- C7 witness: the general part of the amended theorem applied at 3725.4
seconds gives the minutes bound. -/
theorem seconds_to_timecode_amended_witness :
    (seconds_to_timecode (3725.4 : ℚ)).2.1 ≤ 59 :=
  (seconds_to_timecode_amended.1 (3725.4 : ℚ) (by norm_num)).2.1

/-- C8 counterexample.  A node with `previous` absent delivered while the
ordered buffer is non-empty takes the out-of-order branch, where the source
calls `node.previous.map(|l| l.link).unwrap()`: the handler panics instead of
completing. -/
theorem buffer_video_node_panic_counterexample :
    buffer_video_node ⟨"topic", "origin", none, [(5, nodeA)], []⟩ 6 ⟨none, []⟩ =
      none := by decide

/-- C8 amended.  An out-of-order node WITH a previous link is not an error:
the handler inserts it into the pending map keyed by its CID, spawns exactly
one fetch of the previous CID, and completes without panicking. -/
theorem buffer_video_node_out_of_order (st : LiveState) (cid p : Cid)
    (node : VideoNode) (hp : node.previous = some p)
    (h1 : ¬ (st.buffer = [] ∧ node.previous = st.previous))
    (h2 : node.previous ≠ st.buffer.getLast?.map Prod.fst) :
    buffer_video_node st cid node =
      some ({ st with unordered_buffer := alistInsert cid node st.unordered_buffer },
        [Effect.fetchNode p]) := by
  unfold buffer_video_node
  rw [if_neg h1, if_neg h2, hp]

/-- C8 witness: a concrete out-of-order node with a previous link is stored
in the pending map and its predecessor is fetched. -/
theorem buffer_video_node_out_of_order_witness :
    buffer_video_node ⟨"topic", "origin", none, [(5, nodeA)], []⟩ 7 ⟨some 9, []⟩ =
      some (⟨"topic", "origin", none, [(5, nodeA)], [(7, ⟨some 9, []⟩)]⟩,
        [Effect.fetchNode 9]) := by
  have h := buffer_video_node_out_of_order ⟨"topic", "origin", none, [(5, nodeA)], []⟩
    7 9 ⟨some 9, []⟩ rfl (by decide) (by decide)
  simpa [alistInsert] using h

/-- C9 counterexample.  A 65-byte signature whose trailing byte 0 is not a
valid RPC recovery id makes `RecoveryId::parse_rpc(..).expect(..)` panic:
verify crashes (modelled `none`) instead of returning false. -/
theorem verify_invalid_recovery_id_counterexample :
    verify constPrims signedBadV = none ∧ (none : Option Bool) ≠ some false := by
  decide

/-- C9 amended.  When the 65-byte signature parses — (r, s) accepted by the
signature parser and the trailing byte a valid RPC recovery id — and
public-key recovery itself fails, verify returns false without crashing;
an unparseable signature or recovery id panics instead. -/
theorem verify_recover_failure (P : SigPrimitives) (msg : SignedMessage)
    (sig rec_id : Nat) (hlen : msg.signature.length = 65)
    (hk : ∀ bs, (P.keccak256 bs).length = 32)
    (hps : P.parse_signature (msg.signature.take 64) = some sig)
    (hrpc : parse_rpc (msg.signature.getD 64 0) = some rec_id)
    (hrec : P.recover (P.keccak256 (eth_prefixed (P.serialize_json msg.data)))
      sig rec_id = none) :
    verify P msg = some false := by
  unfold verify
  rw [hlen]
  simp only [hk, ne_eq]
  norm_num
  rw [List.getD_eq_getElem?_getD] at hrpc
  simp only [hps, hrpc, hrec]

/-- C9 witness: with a recovery primitive that fails on the well-formed
signature of `signedOk`, verify returns false. -/
theorem verify_recover_failure_witness :
    verify constPrimsNoKey signedOk = some false :=
  verify_recover_failure constPrimsNoKey signedOk 0 0 (by decide) (fun _ => rfl)
    rfl (by decide) rfl

/-- C10.  A signature whose length differs from 65 bytes makes verify return
false from its very first check; the result holds for EVERY choice of
serialisation, hash, signature-parsing and recovery primitive, so none of
them is consulted. -/
theorem verify_length_guard (P : SigPrimitives) (msg : SignedMessage)
    (h : msg.signature.length ≠ 65) : verify P msg = some false := by
  unfold verify
  rw [if_pos h]

/-- C10 witness at an empty signature. -/
theorem verify_length_guard_witness : verify constPrims ⟨[], [], []⟩ = some false :=
  verify_length_guard constPrims ⟨[], [], []⟩ (by decide)

end Dit
